import Mathlib

/-!
Verification of the Guardian Life career scraper
(`guardian_life_scraper_github.py`) against its specification.

The pipeline is shallowly embedded: loosely-typed JSON/pandas values
become `PyVal`, flat rows (the image of `pd.json_normalize`) become
association lists `Row`, the HTTP layer becomes explicit outcome
functions, and each phase of `scrape_jobs` / `main` becomes a pure
Lean function.
-/

set_option maxRecDepth 4000

/-- A scalar Python/JSON value as it appears in a normalized cell.
`pnan` stands for `float('nan')` (pandas' marker for a missing cell;
note that in Python `nan` is *truthy*), `pnone` for `None`. -/
inductive PyScalar where
  | pnone : PyScalar
  | pnan : PyScalar
  | pint : Int → PyScalar
  | pstr : String → PyScalar
deriving DecidableEq, Repr

/-- A Python/JSON value in a cell: a scalar or a list of scalars
(e.g. `additionalLocations : ["NY", "NJ"]`, or `bulletFields`).
After `pd.json_normalize`, nested mappings are already flattened into
dotted column names, so list-of-scalars is the only compound shape a
cell carries. -/
inductive PyVal where
  | scalar : PyScalar → PyVal
  | plist : List PyScalar → PyVal
deriving DecidableEq, Repr

/-- Shorthand constructors. -/
def PyVal.pnone : PyVal := .scalar .pnone
def PyVal.pnan : PyVal := .scalar .pnan
def PyVal.pint (n : Int) : PyVal := .scalar (.pint n)
def PyVal.pstr (s : String) : PyVal := .scalar (.pstr s)

/-- Python truthiness (`bool(v)`): `None`, `0`, `""` and `[]` are falsy;
`nan` is truthy. -/
def truthy : PyVal → Bool
  | .scalar .pnone => false
  | .scalar .pnan => true
  | .scalar (.pint n) => n != 0
  | .scalar (.pstr s) => s != ""
  | .plist xs => !xs.isEmpty

/-- Model of `isinstance(v, list)`. -/
def isList : PyVal → Bool
  | .plist _ => true
  | _ => false

/-- Python `repr` of a scalar (as used when a list is rendered by `str`). -/
def pyReprScalar : PyScalar → String
  | .pnone => "None"
  | .pnan => "nan"
  | .pint n => toString n
  | .pstr s => "\x27" ++ s ++ "\x27"

/-- Python `str(v)`. -/
def pyStr : PyVal → String
  | .scalar .pnone => "None"
  | .scalar .pnan => "nan"
  | .scalar (.pint n) => toString n
  | .scalar (.pstr s) => s
  | .plist xs => "[" ++ String.intercalate ", " (xs.map pyReprScalar) ++ "]"

/-- A flat row: the image of one record under `pd.json_normalize` —
an ordered association of (dotted) column names to cell values.
Keys are unique in any row produced by normalization. -/
abbrev Row : Type := List (String × PyVal)

/-- Reading a cell: a key absent from the row reads as `NaN`, exactly as
pandas materializes a missing key of one record when the column exists
in the frame. -/
def getCell (r : Row) (c : String) : PyVal := (List.lookup c r).getD PyVal.pnan

/-- Writing a cell (Python `d[c] = v` / pandas column assignment for one
row): replaces the value in place if the key is present, otherwise
appends the new key at the end (dict insertion-order semantics). -/
def setCell : Row → String → PyVal → Row
  | [], c, v => [(c, v)]
  | (k, w) :: r, c, v => if k = c then (c, v) :: r else (k, w) :: setCell r c v

/-- Model of `c in df.columns` for a frame built by `pd.json_normalize(rows)`:
the column exists iff some record carries the key. -/
def hasColR (rows : List Row) (c : String) : Bool :=
  rows.any fun r => (List.lookup c r).isSome

/-- Model of `df[c] = df[c].apply(f)` guarded by `if c in df.columns:` — applies
`f` to the `c` cell of every row (absent cells read as `NaN` and the
result is materialized into the row), and is the identity when the
column does not exist. -/
def applyCol (rows : List Row) (c : String) (f : PyVal → PyVal) : List Row :=
  if hasColR rows c then rows.map (fun r => setCell r c (f (getCell r c))) else rows

/-! ### Transport client (`fetch_with_retry`, lines 136-147)

A single request's outcome at a given attempt number is abstracted as
`outcome : Nat → Option α` (`none` = a `requests.exceptions.RequestException`,
which covers network errors, timeouts and — via `raise_for_status` —
non-2xx statuses).  The embedding returns, besides the result, the
trace of `time.sleep` durations and of warning log lines
`(url, attempt)` emitted on the way. -/

/-- Configured retry bound (`MAX_RETRIES = 3`). -/
def MAX_RETRIES : Nat := 3

/-- One iteration step of the `for attempt in range(1, retries + 1)` loop
of `fetch_with_retry`; `fuel` is the number of remaining iterations. -/
def fwrAux {α : Type} (outcome : Nat → Option α) (url : String) (retries : Nat) :
    Nat → Nat → Option α × List Nat × List (String × Nat)
  | _, 0 => (none, [], [])
  | attempt, fuel + 1 =>
    match outcome attempt with
    | some r => (some r, [], [])
    | none =>
      let rest := fwrAux outcome url retries (attempt + 1) fuel
      (rest.1, (if attempt < retries then [2 * attempt] else []) ++ rest.2.1,
        (url, attempt) :: rest.2.2)

/-- Model of `fetch_with_retry(session, method, url, retries)`: attempts run from 1
to `retries`; a failed attempt logs one warning naming the URL and the
attempt count, and sleeps `2 * attempt` seconds when further attempts
remain; exhausting the loop returns `None`. -/
def fetch_with_retry {α : Type} (outcome : Nat → Option α) (url : String)
    (retries : Nat) : Option α × List Nat × List (String × Nat) :=
  fwrAux outcome url retries 1 retries

/-! ### Listing pagination (`fetch_job_list` lines 149-164, the phase-1
loop of `scrape_jobs` lines 204-214)

What the transport + JSON-decode stack yields for one page request is
abstracted per page index: `failure` (`fetch_with_retry` returned
`None` after exhausting retries), `unparseable` (`response.json()`
raised), or `parsed body`.  Page index `i` corresponds to offset
`20 * i` of `range(0, MAX_JOBS, 20)`; the search payload only
influences the server's answer and is absorbed into that function. -/

/-- Outcome of one page request, after transport and JSON decoding. -/
inductive FetchOutcome where
  | failure : FetchOutcome
  | unparseable : FetchOutcome
  | parsed : Option (List Row) → FetchOutcome
deriving DecidableEq

/-- Model of `fetch_job_list`: on transport failure or a JSON decoding error it
returns `{'jobPostings': []}`; otherwise the parsed body, whose
`jobPostings` key may be absent (`parsed none`). -/
def fetch_job_list : FetchOutcome → Option (List Row)
  | .failure => some []
  | .unparseable => some []
  | .parsed body => body

/-- Model of `result.get('jobPostings', [])`. -/
def getPostings (body : Option (List Row)) : List Row := body.getD []

/-- The postings list obtained for page `i` against server behavior
`server`. -/
def pagesOf (server : Nat → FetchOutcome) (i : Nat) : List Row :=
  getPostings (fetch_job_list (server i))

/-- Safety cap on collected jobs (`MAX_JOBS = 1000`). -/
def MAX_JOBS : Nat := 1000

/-- Number of page requests the loop can issue:
`range(0, MAX_JOBS, 20)` has `MAX_JOBS / 20 = 50` offsets. -/
def numPages : Nat := MAX_JOBS / 20

/-- The phase-1 loop body: starting at page `i` with `fuel` iterations
remaining, fetch the page; an empty postings list breaks the loop,
otherwise the postings are appended and the loop continues. -/
def collectAux (P : Nat → List Row) : Nat → Nat → List Row
  | _, 0 => []
  | i, fuel + 1 => if P i = [] then [] else P i ++ collectAux P (i + 1) fuel

/-- Phase 1 of `scrape_jobs`: `all_postings` after the pagination loop. -/
def collect_listings (server : Nat → FetchOutcome) : List Row :=
  collectAux (pagesOf server) 0 numPages

/-! ### Detail fetch (`fetch_job_details`, lines 166-175) -/

/-- Outcome of one detail request (transport + JSON decoding), keyed by
the external path rendered into the URL. -/
inductive DetailOutcome where
  | failure : DetailOutcome
  | unparseable : DetailOutcome
  | parsed : Row → DetailOutcome
deriving DecidableEq

/-- Model of `fetch_job_details`: returns `{}` on transport failure or a JSON
decoding error, the parsed (already normalized, dotted-key) body
otherwise. -/
def fetch_job_details : DetailOutcome → Row
  | .failure => []
  | .unparseable => []
  | .parsed r => r

/-! ### HTML stripping (`html_to_text`, lines 177-182)

`BeautifulSoup(str(x), 'html.parser').get_text(separator=' ', strip=True)`
is embedded for well-formed markup: a `<` opens a tag that runs to the
next `>`, text between tags forms the text nodes; `get_text` with
`strip=True` strips each text node and joins the non-empty ones with
the separator. -/

/-- Tag-stripping scan: outside a tag, `<` ends the current text node
and enters a tag; inside a tag everything up to `>` is skipped.
`acc` holds the current text node reversed. -/
def stripAux : List Char → Bool → List Char → List (List Char)
  | [], _, acc => [acc.reverse]
  | c :: cs, false, acc =>
      if c = '<' then acc.reverse :: stripAux cs true []
      else stripAux cs false (c :: acc)
  | c :: cs, true, acc =>
      if c = '>' then stripAux cs false acc else stripAux cs true acc

/-- The text nodes of an HTML string, in order. -/
def stripTags (s : String) : List String :=
  (stripAux s.data false []).map String.mk

/-- Python `str.strip()`: drop whitespace from both ends. -/
def stripStr (s : String) : String :=
  String.mk (((s.data.dropWhile Char.isWhitespace).reverse.dropWhile
    Char.isWhitespace).reverse)

/-- Model of `separator.join` for `separator = ' '`. -/
def joinSpace : List String → String
  | [] => ""
  | [s] => s
  | s :: rest => s ++ " " ++ joinSpace rest

/-- Model of `html_to_text`: falsy input (`None`, `""`, `0`, `[]`) and `NaN`
(`isinstance(x, float) and pd.isna(x)`; note `nan` itself is truthy)
map to `""`; any other value is rendered with `str` and its markup is
stripped à la `get_text(separator=' ', strip=True)`. -/
def html_to_text (v : PyVal) : String :=
  if truthy v = false then ""
  else if v = PyVal.pnan then ""
  else joinSpace (((stripTags (pyStr v)).map stripStr).filter
    (fun s => decide (s ≠ "")))

/-! ### List-field cleaning (`clean_list_field`, lines 184-188) -/

/-- Model of `clean_list_field`: a list becomes the `', '`-join of `str(v)` over
its truthy elements; every non-list value passes through unchanged. -/
def clean_list_field : PyVal → PyVal
  | .plist xs =>
      .pstr (String.intercalate ", "
        ((xs.filter (fun v => truthy (.scalar v))).map (fun v => pyStr (.scalar v))))
  | v => v

/-! ### Deduplication (`scrape_jobs` lines 222-226)

`listings_df.drop_duplicates(subset=['bulletFields'])` keeps the first
row for each value of the column (pandas treats `NaN` cells as equal
to one another), and is only applied when the column exists. -/

/-- The fingerprint cell used as deduplication key. -/
def bulletKey (r : Row) : PyVal := getCell r "bulletFields"

/-- Scan of `drop_duplicates(subset=['bulletFields'])`: drop a row whose
key was already seen, keep it (and remember its key) otherwise. -/
def dropDupAux : List Row → List PyVal → List Row
  | [], _ => []
  | r :: rs, seen =>
      if bulletKey r ∈ seen then dropDupAux rs seen
      else r :: dropDupAux rs (bulletKey r :: seen)

/-- The deduplication step: first-occurrence-wins dedup by
`bulletFields` when that column exists, pass-through otherwise. -/
def dedupe (rows : List Row) : List Row :=
  if hasColR rows "bulletFields" then dropDupAux rows [] else rows

/-! ### Collection date (`get_date_only`, lines 64-66)

`(datetime.utcnow() + timedelta(hours=5, minutes=30)).strftime('%Y-%m-%d')`:
the current UTC instant is modeled as whole minutes since the Unix
epoch; adding 330 minutes and dividing by 1440 gives the IST civil day
number, rendered through the standard days-to-civil-date conversion. -/

/-- Civil date (year, month, day) of a day count since 1970-01-01. -/
def civilFromDays (days : Nat) : Nat × Nat × Nat :=
  let z := days + 719468
  let era := z / 146097
  let doe := z % 146097
  let yoe := (doe - doe / 1460 + doe / 36524 - doe / 146096) / 365
  let y := yoe + era * 400
  let doy := doe - (365 * yoe + yoe / 4 - yoe / 100)
  let mp := (5 * doy + 2) / 153
  let d := doy - (153 * mp + 2) / 5 + 1
  let m := if mp < 10 then mp + 3 else mp - 9
  (if m ≤ 2 then y + 1 else y, m, d)

/-- Two-digit zero padding of `strftime`. -/
def pad2 (n : Nat) : String := if n < 10 then "0" ++ toString n else toString n

/-- Model of `strftime('%Y-%m-%d')` for a day count since the epoch. -/
def formatDate (days : Nat) : String :=
  let c := civilFromDays days
  toString c.1 ++ "-" ++ pad2 c.2.1 ++ "-" ++ pad2 c.2.2

/-- Model of `get_date_only()`: the civil date of `utcnow + 5h30m`, for a run
instant given as whole minutes since the epoch. -/
def get_date_only (utcMinutes : Nat) : String :=
  formatDate ((utcMinutes + 330) / 1440)

/-! ### The `scrape_jobs` pipeline (lines 190-286)

The external world of one run: what the server answers for each page
request and for each detail URL path. -/

structure Env where
  listPage : Nat → FetchOutcome
  detail : String → DetailOutcome

/-- The `externalPath` cell of a summary row. -/
def pathOf (r : Row) : PyVal := getCell r "externalPath"

/-- The `_externalPath` tag of a fetched detail row. -/
def tagOf (r : Row) : PyVal := getCell r "_externalPath"

/-- Phase 1: `all_postings` (rows are the `pd.json_normalize` images of
the raw postings). -/
def all_postings (env : Env) : List Row := collect_listings env.listPage

/-- The frame `listings_df` after deduplication. -/
def listings_df (env : Env) : List Row := dedupe (all_postings env)

/-- Phase 2 body for one summary: fetch the detail for its path (the
path value is rendered into the URL with `str`), skip it when the
result is falsy (`{}` from a failure, a decode error, or an empty
parsed body), and otherwise tag it with `_externalPath`. -/
def detailFor (env : Env) (l : Row) : Option Row :=
  let d := fetch_job_details (env.detail (pyStr (pathOf l)))
  if d = [] then none else some (setCell d "_externalPath" (pathOf l))

/-- Phase 2: `all_details`, one entry per summary whose detail fetch
produced a truthy body, in summary order. -/
def all_details (env : Env) : List Row := (listings_df env).filterMap (detailFor env)

/-- Phase 3a: HTML-strip the `jobPostingInfo.jobDescription` column of
`details_df` when it exists. -/
def cleanDescrStep (rows : List Row) : List Row :=
  applyCol rows "jobPostingInfo.jobDescription" (fun v => PyVal.pstr (html_to_text v))

/-- Merge-key comparison of `pd.merge(..., left_on='externalPath',
right_on='_externalPath', how='left')`; pandas never matches `NaN`
merge keys. -/
def matchKey (l d : Row) : Bool :=
  tagOf d == pathOf l && !(pathOf l == PyVal.pnan)

/-- The left join: every listing row appears — paired with each matching
detail row (listing cells before detail cells), or alone (detail cells
read as `NaN`) when no detail matches.  (Raw column names never
overlap between the two frames here, so pandas' `_x`/`_y` suffixing of
shared names does not arise.) -/
def mergeLeft : List Row → List Row → List Row
  | [], _ => []
  | l :: ls, ds =>
      (if (ds.filter (matchKey l)).isEmpty then [l]
       else (ds.filter (matchKey l)).map (fun d => l ++ d)) ++ mergeLeft ls ds

/-- The fixed raw-column → human-label mapping (lines 264-273), in
insertion order. -/
def column_mapping : List (String × String) :=
  [("jobPostingInfo.title", "Job Title"),
   ("jobPostingInfo.jobDescription", "Job Description"),
   ("jobPostingInfo.location", "Location"),
   ("jobPostingInfo.additionalLocations", "Additional Locations"),
   ("jobPostingInfo.startDate", "Posted Date"),
   ("jobPostingInfo.jobReqId", "Job ID"),
   ("jobPostingInfo.remoteType", "Remote Type"),
   ("jobPostingInfo.externalUrl", "Application URL")]

/-- Model of `available = [col for col in column_mapping if col in final_df.columns]`:
the merged frame's columns are the union of the two input frames'. -/
def availCols (ls ds : List Row) : List String :=
  (column_mapping.map Prod.fst).filter (fun c => hasColR ls c || hasColR ds c)

/-- The human label of a raw column. -/
def renameCol (c : String) : String := (List.lookup c column_mapping).getD c

/-- Model of `final_df[available].rename(columns=column_mapping)` applied to one
merged row. -/
def selectRow (cols : List String) (r : Row) : Row :=
  cols.map (fun c => (renameCol c, getCell r c))

/-- The `Additional Locations` cleaning step (lines 279-280). -/
def cleanListStep (rows : List Row) : List Row :=
  applyCol rows "Additional Locations" clean_list_field

/-- Phase 3: clean, merge, select/rename, clean list fields, and prepend
the `Scraped Date` column (`final_df.insert(0, ...)`). -/
def final_rows (env : Env) (t : Nat) : List Row :=
  let ls := listings_df env
  let ds := cleanDescrStep (all_details env)
  let merged := mergeLeft ls ds
  (cleanListStep (merged.map (selectRow (availCols ls ds)))).map
    (fun r => ("Scraped Date", PyVal.pstr (get_date_only t)) :: r)

/-- Model of `scrape_jobs()`: `None` when no postings were collected, `None` when
no details were collected, the final frame otherwise. -/
def scrape_jobs (env : Env) (t : Nat) : Option (List Row) :=
  if all_postings env = [] then none
  else if all_details env = [] then none
  else some (final_rows env t)

/-! ### `main` (lines 385-429): the run-level outcome -/

inductive RunStatus where
  | success : RunStatus
  | no_data : RunStatus
  | error : RunStatus
deriving DecidableEq

/-- What `main` hands to its collaborators for a completed
`scrape_jobs` call: the run-history status and record count, the
process exit code, and whether `export_data` ran. -/
structure MainOutcome where
  status : RunStatus
  records_scraped : Nat
  exit_code : Nat
  exported : Bool
deriving DecidableEq

/-- The tail of `main` after `scrape_jobs` returned: `df is None or df.empty` is
recorded as `no_data` with `sys.exit(1)` and no export; otherwise the
frame is exported and recorded as `success` with its row count. -/
def run_main (df : Option (List Row)) : MainOutcome :=
  match df with
  | none => ⟨.no_data, 0, 1, false⟩
  | some rows => if rows = [] then ⟨.no_data, 0, 1, false⟩
                 else ⟨.success, rows.length, 0, true⟩

/-! ## Concrete run environments used by witnesses and counterexamples -/

/-- A run in which every page request fails at the transport layer. -/
def envC7 : Env := ⟨fun _ => .failure, fun _ => .failure⟩

/-- A run in which every page request fails at the transport layer
(zero summaries collected). -/
def envC6a : Env := ⟨fun _ => .failure, fun _ => .failure⟩

/-- A run with one summary on page 0 whose detail fetch fails
(summaries collected, zero details fetched). -/
def envC6b : Env :=
  ⟨fun i => if i = 0 then
      .parsed (some [[("externalPath", PyVal.pstr "/x"), ("bulletFields", PyVal.pstr "b")]])
    else .parsed (some []),
   fun _ => .failure⟩

/-! ## Claim C4 — retry with linear backoff in `fetch_with_retry` -/

/-- C4: a request whose attempts all fail transiently is retried up to
the configured bound of 3, with one warning per failed attempt naming
the URL and the attempt count, sleeping `2 × attempt` seconds between
attempts (2s then 4s), and the exhausted loop returns the `Failure`
signal `none` to the caller instead of raising; a request that
succeeds immediately retries, sleeps and warns not at all. -/
theorem C4_retry_backoff {α : Type} (outcome : Nat → Option α) (url : String) :
    ((∀ a, 1 ≤ a → a ≤ MAX_RETRIES → outcome a = none) →
      fetch_with_retry outcome url MAX_RETRIES =
        (none, [2, 4], [(url, 1), (url, 2), (url, 3)])) ∧
    (∀ r : α, outcome 1 = some r →
      fetch_with_retry outcome url MAX_RETRIES = (some r, [], [])) := by
  constructor
  · intro h
    have h1 := h 1 (by omega) (by simp [MAX_RETRIES])
    have h2 := h 2 (by omega) (by simp [MAX_RETRIES])
    have h3 := h 3 (by omega) (by simp [MAX_RETRIES])
    simp [fetch_with_retry, MAX_RETRIES, fwrAux, h1, h2, h3]
  · intro r hr
    simp [fetch_with_retry, MAX_RETRIES, fwrAux, hr]

/-- Witness for C4 at the concrete always-failing outcome. -/
theorem C4_retry_backoff_witness :
    fetch_with_retry (fun _ => (none : Option Nat)) "u" MAX_RETRIES =
      (none, [2, 4], [("u", 1), ("u", 2), ("u", 3)]) :=
  (C4_retry_backoff (fun _ => (none : Option Nat)) "u").1 (fun _ _ _ => rfl)

/-! ## Claim C5 — page failure is indistinguishable from an empty page -/

/-- C5: when a page request fails at the transport layer or its body
does not parse as JSON, `fetch_job_list` yields the mapping
`{'jobPostings': []}`, and the paginator's output is exactly what it
would be had the server genuinely answered that page with zero
postings. -/
theorem C5_failure_is_empty_page (server : Nat → FetchOutcome) (i : Nat)
    (h : server i = .failure ∨ server i = .unparseable) :
    fetch_job_list (server i) = some [] ∧
    collect_listings server =
      collect_listings (fun j => if j = i then .parsed (some []) else server j) := by
  have hfl : fetch_job_list (server i) = some [] := by
    rcases h with h | h <;> rw [h] <;> rfl
  refine ⟨hfl, ?_⟩
  unfold collect_listings
  have hp : pagesOf server =
      pagesOf (fun j => if j = i then .parsed (some []) else server j) := by
    funext j
    by_cases hj : j = i
    · subst hj
      unfold pagesOf
      rw [hfl]
      simp [fetch_job_list, getPostings]
    · simp [pagesOf, hj]
  rw [hp]

/-- A server that fails on page 2 and otherwise reports empty pages. -/
def serverC5 : Nat → FetchOutcome := fun j => if j = 2 then .failure else .parsed (some [])

/-- Witness for C5 at a concrete server. -/
theorem C5_failure_is_empty_page_witness :
    fetch_job_list (serverC5 2) = some [] ∧
    collect_listings serverC5 =
      collect_listings (fun j => if j = 2 then .parsed (some []) else serverC5 j) :=
  C5_failure_is_empty_page serverC5 2 (Or.inl rfl)

/-! ## Claim C7 — zero summaries short-circuits to the EMPTY outcome -/

/-- C7: a run that collects zero summaries returns no frame from
`scrape_jobs`; `main` then records the run as `no_data` with zero
records, exits with the non-zero code 1, and never reaches
`export_data`. -/
theorem C7_no_summaries (env : Env) (t : Nat) (h : all_postings env = []) :
    scrape_jobs env t = none ∧
    run_main (scrape_jobs env t) = ⟨.no_data, 0, 1, false⟩ := by
  have hs : scrape_jobs env t = none := by simp [scrape_jobs, h]
  exact ⟨hs, by rw [hs]; rfl⟩

/-- Witness for C7 at a run whose page requests all fail. -/
theorem C7_no_summaries_witness :
    scrape_jobs envC7 0 = none ∧
    run_main (scrape_jobs envC7 0) = ⟨.no_data, 0, 1, false⟩ :=
  C7_no_summaries envC7 0 (by decide)

/-! ## Claim C6 — "zero details" versus "zero summaries" signals -/

/-- C6 counterexample: a run with no summaries at all (`envC6a`) and a
run that collected a summary but fetched zero details (`envC6b`)
produce the *same* signal to the status/history collaborator — both
`scrape_jobs` results are `None` and both runs are recorded
identically (`no_data`, 0 records, exit 1, no export) — refuting the
claimed distinguishability. -/
theorem C6_counterexample :
    all_postings envC6a = [] ∧
    all_postings envC6b ≠ [] ∧
    all_details envC6b = [] ∧
    scrape_jobs envC6a 0 = scrape_jobs envC6b 0 ∧
    run_main (scrape_jobs envC6a 0) = run_main (scrape_jobs envC6b 0) := by
  decide

/-- C6 (amended): the outcome "summaries collected, zero details
fetched" is *not* distinguishable from "no summaries collected" in
what reaches the status/history collaborator: both make `scrape_jobs`
return `None`, and `main` records both as `no_data` with 0 records,
exit code 1 and no export; the runs differ only in which warning line
is logged. -/
theorem C6_no_data_indistinct (e1 e2 : Env) (t1 t2 : Nat)
    (h1 : all_postings e1 = []) (h2 : all_postings e2 ≠ [])
    (h3 : all_details e2 = []) :
    scrape_jobs e1 t1 = none ∧ scrape_jobs e2 t2 = none ∧
    run_main (scrape_jobs e1 t1) = run_main (scrape_jobs e2 t2) ∧
    run_main (scrape_jobs e1 t1) = ⟨.no_data, 0, 1, false⟩ := by
  have hs1 : scrape_jobs e1 t1 = none := by simp [scrape_jobs, h1]
  have hs2 : scrape_jobs e2 t2 = none := by simp [scrape_jobs, h2, h3]
  exact ⟨hs1, hs2, by rw [hs1, hs2], by rw [hs1]; rfl⟩

/-- Witness for the amended C6 at the two concrete runs. -/
theorem C6_no_data_indistinct_witness :
    scrape_jobs envC6a 0 = none ∧ scrape_jobs envC6b 0 = none ∧
    run_main (scrape_jobs envC6a 0) = run_main (scrape_jobs envC6b 0) ∧
    run_main (scrape_jobs envC6a 0) = ⟨.no_data, 0, 1, false⟩ :=
  C6_no_data_indistinct envC6a envC6b 0 0 (by decide) (by decide) (by decide)

/-! ## Claim C2 — pagination termination and concatenation -/

/-- Helper: peeling the first page off a concatenation of `n + 1`
consecutive pages. -/
theorem flatten_range_succ_shift (P : Nat → List Row) (i n : Nat) :
    ((List.range (n + 1)).map (fun j => P (i + j))).flatten =
      P i ++ ((List.range n).map (fun j => P (i + 1 + j))).flatten := by
  rw [List.range_succ_eq_map, List.map_cons, List.map_map, List.flatten_cons]
  have e : ((fun j => P (i + j)) ∘ Nat.succ) = (fun j => P (i + 1 + j)) := by
    funext j
    exact congrArg P (by omega)
  rw [e, Nat.add_zero]

/-- Helper: while every page in reach of the remaining fuel is
non-empty, the loop concatenates them all. -/
theorem collectAux_of_forall_ne (P : Nat → List Row) :
    ∀ (fuel i : Nat), (∀ j, j < fuel → P (i + j) ≠ []) →
      collectAux P i fuel = ((List.range fuel).map (fun j => P (i + j))).flatten := by
  intro fuel
  induction fuel with
  | zero => intro i _; simp [collectAux]
  | succ n ih =>
    intro i h
    have hPi : P i ≠ [] := by simpa using h 0 (Nat.succ_pos n)
    have hrest : ∀ j, j < n → P (i + 1 + j) ≠ [] := by
      intro j hj
      have hx := h (j + 1) (by omega)
      have e : i + (j + 1) = i + 1 + j := by omega
      rwa [e] at hx
    rw [flatten_range_succ_shift P i n, collectAux, if_neg hPi, ih (i + 1) hrest]

/-- Helper: if pages `i..i+k` are non-empty and page `i+k+1` is empty
(and the fuel reaches past `k`), the loop returns exactly the
concatenation of pages `i..i+k`. -/
theorem collectAux_of_stop (P : Nat → List Row) :
    ∀ (k fuel i : Nat), k < fuel → (∀ j, j ≤ k → P (i + j) ≠ []) →
      P (i + k + 1) = [] →
      collectAux P i fuel = ((List.range (k + 1)).map (fun j => P (i + j))).flatten := by
  intro k
  induction k with
  | zero =>
    intro fuel i hk h h1
    obtain ⟨m, rfl⟩ : ∃ m, fuel = m + 1 := ⟨fuel - 1, by omega⟩
    have hPi : P i ≠ [] := by simpa using h 0 (le_refl 0)
    have hz : collectAux P (i + 1) m = [] := by
      cases m with
      | zero => rfl
      | succ m2 =>
        have hx : P (i + 1) = [] := by simpa using h1
        rw [collectAux, if_pos hx]
    rw [flatten_range_succ_shift P i 0, collectAux, if_neg hPi, hz]
    simp
  | succ k2 ih =>
    intro fuel i hk h h1
    obtain ⟨m, rfl⟩ : ∃ m, fuel = m + 1 := ⟨fuel - 1, by omega⟩
    have hPi : P i ≠ [] := by simpa using h 0 (Nat.zero_le _)
    have hrest : ∀ j, j ≤ k2 → P (i + 1 + j) ≠ [] := by
      intro j hj
      have hx := h (j + 1) (by omega)
      have e : i + (j + 1) = i + 1 + j := by omega
      rwa [e] at hx
    have h1x : P (i + 1 + k2 + 1) = [] := by
      have e : i + (k2 + 1) + 1 = i + 1 + k2 + 1 := by omega
      rwa [e] at h1
    rw [flatten_range_succ_shift P i (k2 + 1), collectAux, if_neg hPi,
      ih m (i + 1) (by omega) hrest h1x]

/-- C2: whenever pages `0..k` are non-empty and page `k+1` is empty
(with `k` within reach of the cap), the paginator returns exactly the
concatenation of pages `0..k` — page arrival order with within-page
server order preserved; and when no empty page occurs before the
safety cap (`MAX_JOBS = 1000` at page size 20, i.e. 50 page requests),
pagination stops at the cap, returning the concatenation of the 50
pages — whichever of the two bounds comes first. -/
theorem C2_paginator :
    (∀ (server : Nat → FetchOutcome) (k : Nat), k < numPages →
        (∀ i, i ≤ k → pagesOf server i ≠ []) → pagesOf server (k + 1) = [] →
        collect_listings server =
          ((List.range (k + 1)).map (pagesOf server)).flatten) ∧
    (∀ server : Nat → FetchOutcome,
        (∀ i, i < numPages → pagesOf server i ≠ []) →
        collect_listings server =
          ((List.range numPages).map (pagesOf server)).flatten) := by
  constructor
  · intro server k hk h h1
    have hx := collectAux_of_stop (pagesOf server) k numPages 0 hk
      (fun j hj => by simpa using h j hj) (by simpa using h1)
    simpa [collect_listings] using hx
  · intro server h
    have hx := collectAux_of_forall_ne (pagesOf server) numPages 0
      (fun j hj => by simpa using h j hj)
    simpa [collect_listings] using hx

/-- A server with one non-empty page followed by genuinely empty pages. -/
def serverC2 : Nat → FetchOutcome := fun i =>
  if i = 0 then .parsed (some [[("externalPath", PyVal.pstr "/a")]])
  else .parsed (some [])

/-- Witness for C2: page 0 non-empty, page 1 empty, output is exactly
page 0. -/
theorem C2_paginator_witness :
    collect_listings serverC2 = ((List.range 1).map (pagesOf serverC2)).flatten :=
  C2_paginator.1 serverC2 0 (by decide)
    (fun i hi => by
      have h0 : i = 0 := Nat.le_zero.mp hi
      subst h0
      decide)
    (by decide)

/-! ## Claim C3 — properties of deduplication by `bulletFields` -/

/-- Helper: the dedup scan never lengthens the list. -/
theorem dropDupAux_length_le :
    ∀ (rows : List Row) (seen : List PyVal),
      (dropDupAux rows seen).length ≤ rows.length := by
  intro rows
  induction rows with
  | nil => intro seen; simp [dropDupAux]
  | cons r rs ih =>
    intro seen
    rw [dropDupAux]
    by_cases h : bulletKey r ∈ seen
    · rw [if_pos h]
      exact Nat.le_succ_of_le (ih seen)
    · rw [if_neg h]
      simpa using ih (bulletKey r :: seen)

/-- Helper: every survivor's key was unseen at scan start. -/
theorem dropDupAux_key_not_seen :
    ∀ (rows : List Row) (seen : List PyVal) (x : Row),
      x ∈ dropDupAux rows seen → bulletKey x ∉ seen := by
  intro rows
  induction rows with
  | nil => intro seen x hx; simp [dropDupAux] at hx
  | cons r rs ih =>
    intro seen x hx
    rw [dropDupAux] at hx
    by_cases h : bulletKey r ∈ seen
    · rw [if_pos h] at hx
      exact ih seen x hx
    · rw [if_neg h] at hx
      rcases List.mem_cons.mp hx with rfl | hx
      · exact h
      · intro hc
        exact (ih _ x hx) (List.mem_cons_of_mem _ hc)

/-- Helper: survivors have pairwise distinct keys. -/
theorem dropDupAux_pairwise :
    ∀ (rows : List Row) (seen : List PyVal),
      (dropDupAux rows seen).Pairwise (fun a b => bulletKey a ≠ bulletKey b) := by
  intro rows
  induction rows with
  | nil => intro seen; simp [dropDupAux]
  | cons r rs ih =>
    intro seen
    rw [dropDupAux]
    by_cases h : bulletKey r ∈ seen
    · rw [if_pos h]
      exact ih seen
    · rw [if_neg h]
      refine List.Pairwise.cons ?_ (ih _)
      intro x hx heq
      exact (dropDupAux_key_not_seen rs (bulletKey r :: seen) x hx)
        (by rw [← heq]; exact List.mem_cons_self _ _)

/-- Helper: a list with pairwise distinct keys, none already seen, is
left untouched by the scan. -/
theorem dropDupAux_of_pairwise :
    ∀ (rows : List Row) (seen : List PyVal),
      rows.Pairwise (fun a b => bulletKey a ≠ bulletKey b) →
      (∀ x ∈ rows, bulletKey x ∉ seen) → dropDupAux rows seen = rows := by
  intro rows
  induction rows with
  | nil => intro seen _ _; rfl
  | cons r rs ih =>
    intro seen hp hs
    rw [dropDupAux, if_neg (hs r (List.mem_cons_self _ _))]
    congr 1
    apply ih
    · exact (List.pairwise_cons.mp hp).2
    · intro x hx hc
      rcases List.mem_cons.mp hc with heq | hc2
      · exact (List.pairwise_cons.mp hp).1 x hx heq.symm
      · exact hs x (List.mem_cons_of_mem _ hx) hc2

/-- Helper: the scan keeps, for each unseen key, exactly the first row
bearing it. -/
theorem dropDupAux_find? :
    ∀ (rows : List Row) (seen : List PyVal) (v : PyVal), v ∉ seen →
      (dropDupAux rows seen).find? (fun r => bulletKey r == v) =
        rows.find? (fun r => bulletKey r == v) := by
  intro rows
  induction rows with
  | nil => intro seen v _; rfl
  | cons r rs ih =>
    intro seen v hv
    rw [dropDupAux]
    by_cases h : bulletKey r ∈ seen
    · rw [if_pos h]
      have hne : (bulletKey r == v) = false := by
        refine beq_eq_false_iff_ne.mpr ?_
        intro heq
        exact hv (heq ▸ h)
      rw [ih seen v hv, List.find?]
      rw [hne]
    · rw [if_neg h]
      cases hb : (bulletKey r == v) with
      | true =>
        rw [List.find?, List.find?, hb]
      | false =>
        rw [List.find?, List.find?, hb]
        apply ih
        intro hmem
        rcases List.mem_cons.mp hmem with heq | hmem2
        · rw [heq] at hb
          simp at hb
        · exact hv hmem2

/-- C3: deduplication by the `bulletFields` fingerprint is idempotent;
its output is never longer than its input; when the fingerprint column
exists, no two output rows share a fingerprint value; the first row
bearing each fingerprint is the one kept (the first match for any
fingerprint is the same before and after deduplication); and when the
fingerprint column is absent from the whole dataset, deduplication is
the identity. -/
theorem C3_dedup (rows : List Row) :
    dedupe (dedupe rows) = dedupe rows ∧
    (dedupe rows).length ≤ rows.length ∧
    (hasColR rows "bulletFields" = true →
      (dedupe rows).Pairwise (fun a b => bulletKey a ≠ bulletKey b)) ∧
    (∀ v : PyVal, (dedupe rows).find? (fun r => bulletKey r == v) =
      rows.find? (fun r => bulletKey r == v)) ∧
    (hasColR rows "bulletFields" = false → dedupe rows = rows) := by
  refine ⟨?_, ?_, ?_, ?_, ?_⟩
  · by_cases h : hasColR rows "bulletFields"
    · have hd : dedupe rows = dropDupAux rows [] := by rw [dedupe, if_pos h]
      rw [hd]
      by_cases h2 : hasColR (dropDupAux rows []) "bulletFields"
      · rw [dedupe, if_pos h2]
        exact dropDupAux_of_pairwise _ [] (dropDupAux_pairwise rows []) (by simp)
      · rw [dedupe, if_neg h2]
    · have hd : dedupe rows = rows := by rw [dedupe, if_neg h]
      rw [hd]
      exact hd
  · by_cases h : hasColR rows "bulletFields"
    · rw [dedupe, if_pos h]
      exact dropDupAux_length_le rows []
    · rw [dedupe, if_neg h]
  · intro h
    rw [dedupe, if_pos h]
    exact dropDupAux_pairwise rows []
  · intro v
    by_cases h : hasColR rows "bulletFields"
    · rw [dedupe, if_pos h]
      exact dropDupAux_find? rows [] v (by simp)
    · rw [dedupe, if_neg h]
  · intro h
    rw [dedupe, if_neg (by simp [h])]

/-- Concrete summaries: two sharing a fingerprint, one distinct. -/
def rowsC3 : List Row :=
  [[("bulletFields", PyVal.pstr "a"), ("externalPath", PyVal.pstr "/1")],
   [("bulletFields", PyVal.pstr "a"), ("externalPath", PyVal.pstr "/2")],
   [("bulletFields", PyVal.pstr "b"), ("externalPath", PyVal.pstr "/3")]]

/-- Witness for C3 at a concrete dataset with the fingerprint column
present. -/
theorem C3_dedup_witness :
    (dedupe rowsC3).length ≤ rowsC3.length ∧
    (dedupe rowsC3).Pairwise (fun a b => bulletKey a ≠ bulletKey b) ∧
    (dedupe rowsC3).find? (fun r => bulletKey r == PyVal.pstr "a") =
      rowsC3.find? (fun r => bulletKey r == PyVal.pstr "a") :=
  ⟨(C3_dedup rowsC3).2.1, (C3_dedup rowsC3).2.2.1 (by decide),
    (C3_dedup rowsC3).2.2.2.1 (PyVal.pstr "a")⟩

/-! ## Claim C9 — totality and behavior of `html_to_text` -/

/-- Helper: a string with no `<` is one single text node. -/
theorem stripAux_no_lt :
    ∀ (cs acc : List Char), (∀ c ∈ cs, c ≠ '<') →
      stripAux cs false acc = [acc.reverse ++ cs] := by
  intro cs
  induction cs with
  | nil => intro acc _; simp [stripAux]
  | cons c cs ih =>
    intro acc h
    rw [stripAux, if_neg (h c (List.mem_cons_self _ _))]
    rw [ih (c :: acc) (fun x hx => h x (List.mem_cons_of_mem _ hx))]
    simp

/-- Helper: no text node produced by the scan contains `<`. -/
theorem stripAux_mem_ne_lt :
    ∀ (cs : List Char) (b : Bool) (acc : List Char),
      (∀ c ∈ acc, c ≠ '<') →
      ∀ seg ∈ stripAux cs b acc, ∀ c ∈ seg, c ≠ '<' := by
  intro cs
  induction cs with
  | nil =>
    intro b acc hacc seg hseg c hc
    simp [stripAux] at hseg
    subst hseg
    exact hacc c (List.mem_reverse.mp hc)
  | cons a cs ih =>
    intro b acc hacc seg hseg c hc
    cases b with
    | false =>
      rw [stripAux] at hseg
      by_cases ha : a = '<'
      · rw [if_pos ha] at hseg
        rcases List.mem_cons.mp hseg with rfl | hseg2
        · exact hacc c (List.mem_reverse.mp hc)
        · exact ih true [] (by simp) seg hseg2 c hc
      · rw [if_neg ha] at hseg
        refine ih false (a :: acc) ?_ seg hseg c hc
        intro x hx
        rcases List.mem_cons.mp hx with rfl | hx2
        · exact ha
        · exact hacc x hx2
    | true =>
      rw [stripAux] at hseg
      by_cases ha : a = '>'
      · rw [if_pos ha] at hseg
        exact ih false acc hacc seg hseg c hc
      · rw [if_neg ha] at hseg
        exact ih true acc hacc seg hseg c hc

/-- Helper: stripping only removes characters. -/
theorem mem_stripStr (s : String) (c : Char) :
    c ∈ (stripStr s).data → c ∈ s.data := by
  intro hc
  have hc2 : c ∈ (s.data.dropWhile Char.isWhitespace).reverse.dropWhile
      Char.isWhitespace := List.mem_reverse.mp hc
  have hc3 : c ∈ (s.data.dropWhile Char.isWhitespace).reverse :=
    (List.dropWhile_sublist _).subset hc2
  exact (List.dropWhile_sublist _).subset (List.mem_reverse.mp hc3)

/-- Helper: characters of a space-join come from the parts or are the
separator. -/
theorem mem_joinSpace :
    ∀ (l : List String) (c : Char), c ∈ (joinSpace l).data →
      c = ' ' ∨ ∃ s ∈ l, c ∈ s.data := by
  intro l
  induction l with
  | nil =>
    intro c hc
    exact absurd hc (by simp [joinSpace])
  | cons s rest ih =>
    cases rest with
    | nil =>
      intro c hc
      exact Or.inr ⟨s, List.mem_cons_self _ _, hc⟩
    | cons s2 rest2 =>
      intro c hc
      have he : joinSpace (s :: s2 :: rest2) = s ++ " " ++ joinSpace (s2 :: rest2) := rfl
      rw [he, String.data_append, String.data_append] at hc
      rcases List.mem_append.mp hc with h1 | h2
      · rcases List.mem_append.mp h1 with h1a | h1b
        · exact Or.inr ⟨s, List.mem_cons_self _ _, h1a⟩
        · left
          have hsp : (" " : String).data = [' '] := rfl
          rw [hsp] at h1b
          simpa using h1b
      · rcases ih c h2 with h5 | ⟨t, ht, hct⟩
        · exact Or.inl h5
        · exact Or.inr ⟨t, List.mem_cons_of_mem _ ht, hct⟩

/-- Helper: the output of `html_to_text` never contains `<` — tags are
removed. -/
theorem html_to_text_no_lt (v : PyVal) : '<' ∉ (html_to_text v).data := by
  unfold html_to_text
  by_cases h1 : truthy v = false
  · rw [if_pos h1]
    simp
  · rw [if_neg h1]
    by_cases h2 : v = PyVal.pnan
    · rw [if_pos h2]
      simp
    · rw [if_neg h2]
      intro hc
      rcases mem_joinSpace _ _ hc with he | ⟨s, hs, hcs⟩
      · exact absurd he (by decide)
      · have hs2 := (List.mem_filter.mp hs).1
        rcases List.mem_map.mp hs2 with ⟨s0, hs0, rfl⟩
        have hcs0 := mem_stripStr s0 _ hcs
        rcases List.mem_map.mp hs0 with ⟨seg, hseg, rfl⟩
        exact stripAux_mem_ne_lt (pyStr v).data false [] (by simp) seg hseg
          '<' hcs0 rfl

/-- Helper: markup-free text without surrounding whitespace passes
through unchanged. -/
theorem html_to_text_plain (s : String) (hne : s ≠ "")
    (hlt : ∀ c ∈ s.data, c ≠ '<') (hstrip : stripStr s = s) :
    html_to_text (PyVal.pstr s) = s := by
  unfold html_to_text
  have ht : truthy (PyVal.pstr s) = true := by simp [truthy, PyVal.pstr, hne]
  rw [if_neg (by simp [ht])]
  rw [if_neg (by simp [PyVal.pstr, PyVal.pnan])]
  have hp : pyStr (PyVal.pstr s) = s := rfl
  rw [hp]
  have hst : stripTags s = [s] := by
    unfold stripTags
    rw [stripAux_no_lt s.data [] hlt]
    simp
  rw [hst]
  have hm : List.map stripStr [s] = [s] := by simp [hstrip]
  rw [hm]
  have hf : List.filter (fun t => decide (t ≠ "")) [s] = [s] := by simp [hne]
  rw [hf]
  rfl

/-- C9 counterexample: the truthy non-string `5` is rendered via `str`
and survives as `"5"`, not the empty string; and plain text carrying
leading/trailing whitespace is not returned unchanged (`strip=True`
trims it). -/
theorem C9_counterexample :
    html_to_text (PyVal.pint 5) = "5" ∧ ("5" : String) ≠ "" ∧
    html_to_text (PyVal.pstr " a ") = "a" ∧ ("a" : String) ≠ " a " := by
  decide

/-- C9 (amended): `html_to_text` is total; falsy input (`None`, `""`,
`0`, `[]`) and `NaN` map to the empty string, while a *truthy*
non-string input is coerced with `str` and processed (e.g. `5 ↦ "5"`);
markup-free plain text without leading/trailing whitespace is returned
unchanged; tag removal is real (no output ever contains `<`); and
well-formed markup collapses to its node-wise stripped text joined by
single spaces. -/
theorem C9_html_to_text :
    (∀ v : PyVal, truthy v = false → html_to_text v = "") ∧
    html_to_text PyVal.pnan = "" ∧
    html_to_text (PyVal.pint 5) = "5" ∧
    (∀ s : String, s ≠ "" → (∀ c ∈ s.data, c ≠ '<') → stripStr s = s →
      html_to_text (PyVal.pstr s) = s) ∧
    (∀ v : PyVal, '<' ∉ (html_to_text v).data) ∧
    html_to_text (PyVal.pstr "<p>Hello   <b>World</b></p>") = "Hello World" := by
  refine ⟨?_, by decide, by decide, html_to_text_plain, html_to_text_no_lt, by decide⟩
  intro v h
  unfold html_to_text
  rw [if_pos h]

/-- Witness for the amended C9 at concrete inputs. -/
theorem C9_html_to_text_witness :
    html_to_text PyVal.pnone = "" ∧ html_to_text (PyVal.pstr "plain") = "plain" :=
  ⟨C9_html_to_text.1 PyVal.pnone rfl,
   C9_html_to_text.2.2.2.1 "plain" (by decide) (by decide) (by decide)⟩

/-! ## Claim C10 — `clean_list_field` and its application site -/

/-- Helper: writing a cell makes it readable. -/
theorem getCell_setCell_self :
    ∀ (r : Row) (c : String) (v : PyVal), getCell (setCell r c v) c = v := by
  intro r
  induction r with
  | nil =>
    intro c v
    simp [setCell, getCell, List.lookup]
  | cons p r ih =>
    intro c v
    obtain ⟨k, w⟩ := p
    rw [setCell]
    by_cases h : k = c
    · rw [if_pos h]
      simp [getCell, List.lookup]
    · rw [if_neg h]
      have hck : (c == k) = false := beq_eq_false_iff_ne.mpr (fun e => h e.symm)
      simpa [getCell, List.lookup, hck] using ih c v

/-- Helper: writing one cell leaves every other cell unchanged. -/
theorem getCell_setCell_ne :
    ∀ (r : Row) (c c2 : String) (v : PyVal), c2 ≠ c →
      getCell (setCell r c v) c2 = getCell r c2 := by
  intro r
  induction r with
  | nil =>
    intro c c2 v h
    have hx : (c2 == c) = false := beq_eq_false_iff_ne.mpr h
    simp [setCell, getCell, List.lookup, hx]
  | cons p r ih =>
    intro c c2 v h
    obtain ⟨k, w⟩ := p
    rw [setCell]
    by_cases hk : k = c
    · rw [if_pos hk]
      subst hk
      have hx : (c2 == k) = false := beq_eq_false_iff_ne.mpr h
      simp [getCell, List.lookup, hx]
    · rw [if_neg hk]
      by_cases hc2 : c2 = k
      · subst hc2
        simp [getCell, List.lookup]
      · have hx : (c2 == k) = false := beq_eq_false_iff_ne.mpr hc2
        simpa [getCell, List.lookup, hx] using ih c c2 v h

/-- C10: `clean_list_field` maps a list to the `", "`-join of the `str`
renderings of its truthy elements only — falsy elements (empty
strings, `None`, `0`) are dropped from the join — and returns every
non-list value unchanged; in the pipeline the transformation is
applied only to the `Additional Locations` column (absent column ⇒
no-op; other columns' cells are untouched). -/
theorem C10_clean_list_field :
    (∀ xs : List PyScalar, clean_list_field (PyVal.plist xs) =
      PyVal.pstr (String.intercalate ", "
        ((xs.filter (fun v => truthy (.scalar v))).map (fun v => pyStr (.scalar v))))) ∧
    (∀ (pre post : List PyScalar) (v : PyScalar), truthy (.scalar v) = false →
      clean_list_field (PyVal.plist (pre ++ v :: post)) =
        clean_list_field (PyVal.plist (pre ++ post))) ∧
    (∀ v : PyVal, isList v = false → clean_list_field v = v) ∧
    clean_list_field (PyVal.plist [.pstr "NY", .pstr "NJ"]) = PyVal.pstr "NY, NJ" ∧
    (∀ rows : List Row, hasColR rows "Additional Locations" = false →
      cleanListStep rows = rows) ∧
    (∀ (rows : List Row) (i : Nat) (c : String), c ≠ "Additional Locations" →
      getCell ((cleanListStep rows).getD i []) c = getCell (rows.getD i []) c) := by
  refine ⟨fun xs => rfl, ?_, ?_, by decide, ?_, ?_⟩
  · intro pre post v hv
    simp [clean_list_field, List.filter_append, List.filter_cons, hv]
  · intro v hv
    cases v with
    | scalar s => rfl
    | plist xs => simp [isList] at hv
  · intro rows h
    unfold cleanListStep applyCol
    rw [if_neg (by simp [h])]
  · intro rows i c hc
    unfold cleanListStep applyCol
    by_cases h : hasColR rows "Additional Locations"
    · rw [if_pos h]
      have hmap : ∀ (rs : List Row) (j : Nat),
          getCell ((rs.map (fun r => setCell r "Additional Locations"
            (clean_list_field (getCell r "Additional Locations")))).getD j []) c =
          getCell (rs.getD j []) c := by
        intro rs
        induction rs with
        | nil => intro j; cases j <;> rfl
        | cons r rs ih =>
          intro j
          cases j with
          | zero => exact getCell_setCell_ne r _ c _ hc
          | succ j2 => exact ih j2
      exact hmap rows i
    · rw [if_neg h]

/-- Witness for C10 at concrete inputs (a falsy element dropped from the
join, a non-list passed through, a frame without the column left
intact). -/
theorem C10_clean_list_field_witness :
    clean_list_field (PyVal.plist [.pstr "", .pstr "NY", .pnone, .pint 0, .pstr "NJ"]) =
      clean_list_field (PyVal.plist [.pstr "", .pstr "NY", .pnone, .pstr "NJ"]) ∧
    clean_list_field (PyVal.pint 7) = PyVal.pint 7 ∧
    cleanListStep [[("Location", PyVal.pstr "NY")]] = [[("Location", PyVal.pstr "NY")]] :=
  ⟨C10_clean_list_field.2.1 [.pstr "", .pstr "NY", .pnone] [.pstr "NJ"] (.pint 0) rfl,
   C10_clean_list_field.2.2.1 (PyVal.pint 7) rfl,
   C10_clean_list_field.2.2.2.2.1 [[("Location", PyVal.pstr "NY")]] (by decide)⟩

/-! ## Claim C8 — the prepended `Scraped Date` column -/

/-- Helper: a formatted date has positive length (it contains the two
dashes of `%Y-%m-%d`). -/
theorem formatDate_length_pos (days : Nat) : 0 < (formatDate days).length := by
  unfold formatDate
  rw [String.length_append, String.length_append, String.length_append]
  have e : ("-" : String).length = 1 := rfl
  simp only [e]
  omega

/-- Helper: a formatted date is never the empty string. -/
theorem formatDate_ne_empty (days : Nat) : formatDate days ≠ "" := by
  intro h
  have hp := formatDate_length_pos days
  rw [h] at hp
  exact (by decide : ¬ 0 < ("" : String).length) hp

/-- C8: every row of a produced final dataset carries `Scraped Date` as
its first (prepended) column, holding the run's collection date — the
date of the run instant shifted by the fixed offset UTC+5:30 (330
minutes), formatted `YYYY-MM-DD` — which is non-empty and identical
across all rows of the run (each equals `get_date_only t`,
independent of anything in the source data). -/
theorem C8_scraped_date (env : Env) (t : Nat) (rows : List Row)
    (h : scrape_jobs env t = some rows) :
    (∀ r ∈ rows, r.head? = some ("Scraped Date", PyVal.pstr (get_date_only t))) ∧
    get_date_only t ≠ "" ∧
    get_date_only t = formatDate ((t + 330) / 1440) := by
  refine ⟨?_, formatDate_ne_empty _, rfl⟩
  intro r hr
  have hrows : rows = final_rows env t := by
    unfold scrape_jobs at h
    by_cases h1 : all_postings env = []
    · rw [if_pos h1] at h
      exact absurd h (by simp)
    · rw [if_neg h1] at h
      by_cases h2 : all_details env = []
      · rw [if_pos h2] at h
        exact absurd h (by simp)
      · rw [if_neg h2] at h
        exact (Option.some_inj.mp h).symm
  subst hrows
  simp only [final_rows] at hr
  rcases List.mem_map.mp hr with ⟨r0, _, rfl⟩
  rfl

/-- A run with one summary whose detail fetch succeeds. -/
def envC8 : Env :=
  ⟨fun i => if i = 0 then
      .parsed (some [[("externalPath", PyVal.pstr "/job/1"),
                      ("bulletFields", PyVal.pstr "b1")]])
    else .parsed (some []),
   fun _ => .parsed [("jobPostingInfo.title", PyVal.pstr "T")]⟩

/-- The final dataset `envC8` yields at run instant 0 (1970-01-01 UTC,
still 1970-01-01 at UTC+5:30). -/
def rowsC8 : List Row :=
  [[("Scraped Date", PyVal.pstr "1970-01-01"), ("Job Title", PyVal.pstr "T")]]

/-- Witness for C8 at the concrete run `envC8`. -/
theorem C8_scraped_date_witness :
    scrape_jobs envC8 0 = some rowsC8 ∧
    (∀ r ∈ rowsC8, r.head? = some ("Scraped Date", PyVal.pstr (get_date_only 0))) ∧
    get_date_only 0 ≠ "" :=
  ⟨by decide, (C8_scraped_date envC8 0 rowsC8 (by decide)).1,
   (C8_scraped_date envC8 0 rowsC8 (by decide)).2.1⟩

/-! ## Claim C1 — row count of the final dataset -/

/-- Helper: the guarded column-apply preserves the row count. -/
theorem length_applyCol (rows : List Row) (c : String) (f : PyVal → PyVal) :
    (applyCol rows c f).length = rows.length := by
  unfold applyCol
  by_cases h : hasColR rows c
  · rw [if_pos h, List.length_map]
  · rw [if_neg h]

/-- Helper: a left join in which every left row has at most one match
produces exactly one output row per left row. -/
theorem mergeLeft_length :
    ∀ (ls ds : List Row), (∀ l ∈ ls, (ds.filter (matchKey l)).length ≤ 1) →
      (mergeLeft ls ds).length = ls.length := by
  intro ls
  induction ls with
  | nil => intro ds _; rfl
  | cons l ls ih =>
    intro ds h
    rw [mergeLeft, List.length_append,
      ih ds (fun x hx => h x (List.mem_cons_of_mem _ hx))]
    by_cases he : (ds.filter (matchKey l)).isEmpty
    · rw [if_pos he]
      simp only [List.length_singleton, List.length_cons, List.length_nil]
      omega
    · rw [if_neg he, List.length_map]
      have hl := h l (List.mem_cons_self _ _)
      have hne : (ds.filter (matchKey l)).length ≠ 0 := fun h0 =>
        he (by rw [List.length_eq_zero.mp h0]; rfl)
      have h1 : (ds.filter (matchKey l)).length = 1 := by omega
      rw [h1]
      simp only [List.length_cons]
      omega

/-- Helper: filtering the image of a `filterMap` is bounded by filtering
the sources that could have produced a kept image. -/
theorem filterMap_filter_le {g : Row → Option Row} {q : Row → Bool} {p : Row → Bool}
    (hgq : ∀ l d, g l = some d → q d = true → p l = true) :
    ∀ ls : List Row, ((ls.filterMap g).filter q).length ≤ (ls.filter p).length := by
  intro ls
  induction ls with
  | nil => simp
  | cons l ls ih =>
    have hmono : (ls.filter p).length ≤ ((l :: ls).filter p).length := by
      rw [List.filter_cons]
      by_cases hp : p l = true
      · rw [if_pos hp]
        exact Nat.le_succ _
      · rw [if_neg hp]
    rw [List.filterMap_cons]
    cases hg : g l with
    | none => exact le_trans ih hmono
    | some d =>
      rw [List.filter_cons]
      by_cases hq : q d = true
      · rw [if_pos hq, List.filter_cons, if_pos (hgq l d hg hq)]
        simp only [List.length_cons]
        exact Nat.succ_le_succ ih
      · rw [if_neg hq]
        exact le_trans ih hmono

/-- Helper: in a list with pairwise distinct paths, at most one element
carries any given path. -/
theorem filter_eq_path_le_one :
    ∀ (ls : List Row), (ls.map pathOf).Nodup → ∀ l ∈ ls,
      (ls.filter (fun x => pathOf x == pathOf l)).length ≤ 1 := by
  intro ls
  induction ls with
  | nil => intro _ l hl; simp at hl
  | cons a ls ih =>
    intro hnd l hl
    rw [List.map_cons] at hnd
    have hnd1 : pathOf a ∉ ls.map pathOf := (List.nodup_cons.mp hnd).1
    have hnd2 : (ls.map pathOf).Nodup := (List.nodup_cons.mp hnd).2
    rcases List.mem_cons.mp hl with rfl | hl2
    · rw [List.filter_cons, if_pos (by simp)]
      simp only [List.length_cons]
      have hz : (ls.filter (fun x => pathOf x == pathOf l)).length = 0 := by
        rw [List.length_eq_zero]
        refine List.filter_eq_nil_iff.mpr ?_
        intro x hx hb
        exact hnd1 ((beq_iff_eq.mp hb) ▸ List.mem_map_of_mem pathOf hx)
      omega
    · rw [List.filter_cons]
      by_cases hb : (pathOf a == pathOf l) = true
      · exact absurd ((beq_iff_eq.mp hb) ▸ List.mem_map_of_mem pathOf hl2) hnd1
      · rw [if_neg hb]
        exact ih hnd2 l hl2

/-- Helper: HTML-cleaning the description column of the details frame
does not change which rows match a listing (the `_externalPath` tag is
untouched). -/
theorem filter_matchKey_cleanDescr (l : Row) (ds : List Row) :
    ((cleanDescrStep ds).filter (matchKey l)).length =
      (ds.filter (matchKey l)).length := by
  unfold cleanDescrStep applyCol
  by_cases h : hasColR ds "jobPostingInfo.jobDescription"
  · rw [if_pos h]
    rw [← List.countP_eq_length_filter, ← List.countP_eq_length_filter,
      List.countP_map]
    refine List.countP_congr ?_
    intro d _
    have he : matchKey l (setCell d "jobPostingInfo.jobDescription"
        (PyVal.pstr (html_to_text (getCell d "jobPostingInfo.jobDescription")))) =
        matchKey l d := by
      unfold matchKey tagOf
      rw [getCell_setCell_ne _ _ _ _ (by decide)]
    simp only [Function.comp]
    rw [he]
  · rw [if_neg h]

/-- Helper: a detail kept by phase 2 is tagged with its source
listing's path. -/
theorem detailFor_tag (env : Env) (l d : Row) (h : detailFor env l = some d) :
    tagOf d = pathOf l := by
  simp only [detailFor] at h
  by_cases hd : fetch_job_details (env.detail (pyStr (pathOf l))) = []
  · rw [if_pos hd] at h
    exact absurd h (by simp)
  · rw [if_neg hd] at h
    rw [← Option.some_inj.mp h]
    unfold tagOf
    exact getCell_setCell_self _ _ _

/-- C1 (amended): when the deduplicated summaries carry pairwise
distinct `externalPath` identifiers, the final dataset has exactly one
row per surviving summary — `n` rows, *not* `n - k`: summaries whose
detail fetch failed are kept by the left join with `NaN`-filled detail
fields (the dataset exists provided at least one summary and at least
one detail were collected). -/
theorem C1_final_row_count (env : Env) (t : Nat)
    (hnd : ((listings_df env).map pathOf).Nodup)
    (hp : all_postings env ≠ []) (hd : all_details env ≠ []) :
    (scrape_jobs env t).map List.length = some ((listings_df env).length) := by
  have hs : scrape_jobs env t = some (final_rows env t) := by
    unfold scrape_jobs
    rw [if_neg hp, if_neg hd]
  rw [hs]
  show some ((final_rows env t).length) = _
  congr 1
  simp only [final_rows]
  rw [List.length_map]
  unfold cleanListStep
  rw [length_applyCol, List.length_map]
  apply mergeLeft_length
  intro l hl
  rw [filter_matchKey_cleanDescr]
  calc ((all_details env).filter (matchKey l)).length
      ≤ ((listings_df env).filter (fun x => pathOf x == pathOf l)).length := by
        unfold all_details
        apply filterMap_filter_le
        intro l2 d hg hq
        have ht := detailFor_tag env l2 d hg
        unfold matchKey at hq
        have h1 : (tagOf d == pathOf l) = true :=
          ((Bool.and_eq_true _ _) ▸ hq).1
        exact beq_iff_eq.mpr (by rw [← ht]; exact beq_iff_eq.mp h1)
    _ ≤ 1 := filter_eq_path_le_one (listings_df env) hnd l hl

/-- A run with two unique summaries of which one detail fetch fails:
`n = 2`, `k = 1`. -/
def envC1 : Env :=
  ⟨fun i => if i = 0 then
      .parsed (some [[("externalPath", PyVal.pstr "/j/1"),
                      ("bulletFields", PyVal.pstr "b1")],
                     [("externalPath", PyVal.pstr "/j/2"),
                      ("bulletFields", PyVal.pstr "b2")]])
    else .parsed (some []),
   fun p => if p = "/j/1" then .parsed [("jobPostingInfo.title", PyVal.pstr "T1")]
            else .failure⟩

/-- C1 counterexample: with 2 unique summaries surviving deduplication
and 1 failed detail fetch, the final dataset has 2 rows, not
`2 - 1 = 1` — failed-detail rows are not dropped by the left join. -/
theorem C1_counterexample :
    (listings_df envC1).length = 2 ∧
    (all_details envC1).length = 1 ∧
    (scrape_jobs envC1 0).map List.length = some 2 ∧
    (scrape_jobs envC1 0).map List.length ≠ some (2 - 1) := by
  decide

/-- Witness for the amended C1 at the concrete run `envC1`. -/
theorem C1_final_row_count_witness :
    (scrape_jobs envC1 0).map List.length = some ((listings_df envC1).length) :=
  C1_final_row_count envC1 0 (by decide) (by decide) (by decide)
